import Mathlib

/-!
Verification development for the market data collector core
(`market_data_collector/storage/sqlite.py`, `market_data_collector/subscriptions.py`,
`market_data_collector/runtime.py`).

The Python code is shallowly embedded:
* each SQLite table of a per-symbol shard becomes a Lean list of row records,
  in insertion order;
* SQL `REAL` column values become `Rat` (the claims only store and compare
  them, no floating-point arithmetic is relevant), `TEXT` becomes `String`,
  epoch-millisecond timestamps become `Int`;
* nullable values (`data.get(key)` on a Python dict) become `Option`;
* a raised `sqlite3.IntegrityError` that propagates out of an insert method
  (rolling back the transaction via the connection context manager) becomes an
  `Option SqlErr` paired with the unchanged shard.
-/

namespace MDC

/-- `sqlite3.IntegrityError` raised by a constraint violation. -/
inductive SqlErr where
  | integrity
  deriving DecidableEq, Repr

/-- `RETENTION_DAYS = 7` expressed in epoch milliseconds. -/
def RETENTION_MS : Int := 7 * 24 * 3600 * 1000

/-- `int((datetime.now() - timedelta(days=RETENTION_DAYS)).timestamp() * 1000)`
with `now` the current epoch-millisecond clock reading. -/
def cutoff (now : Int) : Int := now - RETENTION_MS

/-- A stored row of the `ticker` table (`timestamp`/`symbol` are `NOT NULL`,
every other data column is a nullable `REAL`, `info` is `TEXT`). -/
structure TickerRow where
  timestamp : Int
  symbol : String
  high : Option Rat
  low : Option Rat
  bid : Option Rat
  bid_volume : Option Rat
  ask : Option Rat
  ask_volume : Option Rat
  vwap : Option Rat
  open_ : Option Rat
  close : Option Rat
  last : Option Rat
  previous_close : Option Rat
  change : Option Rat
  percentage : Option Rat
  average : Option Rat
  base_volume : Option Rat
  quote_volume : Option Rat
  info : String
  deriving DecidableEq, Repr

/-- A stored row of the `orderbook` table; `bids`/`asks` hold the
`json.dumps`-serialized arrays. -/
structure OrderbookRow where
  timestamp : Int
  symbol : String
  bids : String
  asks : String
  nonce : Option Int
  datetime_ : Option String
  deriving DecidableEq, Repr

/-- A stored row of the `trades` table. `id TEXT PRIMARY KEY` without
`NOT NULL`: SQLite permits `NULL` ids (which never conflict), hence
`Option String`. `timestamp`, `symbol`, `side`, `price`, `amount` are
`NOT NULL`. -/
structure TradeRow where
  id : Option String
  timestamp : Int
  symbol : String
  side : String
  price : Rat
  amount : Rat
  cost : Option Rat
  order_id : Option String
  taker_or_maker : Option String
  fee_cost : Option Rat
  fee_currency : Option String
  info : String
  deriving DecidableEq, Repr

/-- A stored row of the `ohlcv` table; `PRIMARY KEY (timestamp, timeframe)`,
all columns `NOT NULL`. -/
structure OhlcvRow where
  timestamp : Int
  symbol : String
  timeframe : String
  open_ : Rat
  high : Rat
  low : Rat
  close : Rat
  volume : Rat
  deriving DecidableEq, Repr

/-- A stored row of the `funding_rate` table; `timestamp` is the primary key,
`timestamp`/`symbol`/`funding_rate` are `NOT NULL`. -/
structure FundingRateRow where
  timestamp : Int
  symbol : String
  funding_rate : Rat
  funding_timestamp : Option Int
  info : String
  deriving DecidableEq, Repr

/-- A stored row of the `mark_price` table; `timestamp` is the primary key,
`timestamp`/`symbol`/`mark_price` are `NOT NULL`. -/
structure MarkPriceRow where
  timestamp : Int
  symbol : String
  mark_price : Rat
  index_price : Option Rat
  info : String
  deriving DecidableEq, Repr

/-- One per-symbol SQLite shard: the six data tables (each a list of rows in
insertion order) plus the symbol the storage instance was constructed for. -/
structure Shard where
  symbol : String
  ticker : List TickerRow
  orderbook : List OrderbookRow
  trades : List TradeRow
  ohlcv : List OhlcvRow
  funding_rate : List FundingRateRow
  mark_price : List MarkPriceRow
  deriving DecidableEq, Repr

/-- `SQLiteStorage._cleanup_old_records`: delete from all six tables every row
with `timestamp < cutoff`. -/
def cleanup_old_records (now : Int) (s : Shard) : Shard :=
  { s with
    ticker := s.ticker.filter (fun r => cutoff now ≤ r.timestamp)
    orderbook := s.orderbook.filter (fun r => cutoff now ≤ r.timestamp)
    trades := s.trades.filter (fun r => cutoff now ≤ r.timestamp)
    ohlcv := s.ohlcv.filter (fun r => cutoff now ≤ r.timestamp)
    funding_rate := s.funding_rate.filter (fun r => cutoff now ≤ r.timestamp)
    mark_price := s.mark_price.filter (fun r => cutoff now ≤ r.timestamp) }

/-- The ccxt-style ticker payload dict as projected by `insert_ticker`'s
`data.get(...)` calls (absent key ↦ `none`). -/
structure TickerPayload where
  timestamp : Option Int
  symbol : Option String
  high : Option Rat
  low : Option Rat
  bid : Option Rat
  bidVolume : Option Rat
  ask : Option Rat
  askVolume : Option Rat
  vwap : Option Rat
  open_ : Option Rat
  close : Option Rat
  last : Option Rat
  previousClose : Option Rat
  change : Option Rat
  percentage : Option Rat
  average : Option Rat
  baseVolume : Option Rat
  quoteVolume : Option Rat
  info : String
  deriving DecidableEq, Repr

/-- Row the `INSERT INTO ticker` statement tries to write; `none` when a
`NOT NULL` column (`timestamp`, `symbol`) would receive `NULL`. -/
def mkTickerRow (p : TickerPayload) : Option TickerRow :=
  match p.timestamp, p.symbol with
  | some t, some sy =>
      some { timestamp := t, symbol := sy, high := p.high, low := p.low,
             bid := p.bid, bid_volume := p.bidVolume, ask := p.ask,
             ask_volume := p.askVolume, vwap := p.vwap, open_ := p.open_,
             close := p.close, last := p.last,
             previous_close := p.previousClose, change := p.change,
             percentage := p.percentage, average := p.average,
             base_volume := p.baseVolume, quote_volume := p.quoteVolume,
             info := p.info }
  | _, _ => none

/-- `SQLiteStorage.insert_ticker`: plain `INSERT` (append-only), then retention
cleanup, in one transaction; a `NOT NULL` violation raises and rolls back. -/
def insert_ticker (p : TickerPayload) (now : Int) (s : Shard) :
    Option SqlErr × Shard :=
  match mkTickerRow p with
  | none => (some .integrity, s)
  | some r => (none, cleanup_old_records now { s with ticker := s.ticker ++ [r] })

/-- The orderbook payload as projected by `insert_orderbook` (`bids`/`asks`
already passed through `json.dumps`, hence never `NULL`). -/
structure OrderbookPayload where
  timestamp : Option Int
  symbol : Option String
  bids : String
  asks : String
  nonce : Option Int
  datetime_ : Option String
  deriving DecidableEq, Repr

/-- Row the `INSERT INTO orderbook` statement tries to write. -/
def mkOrderbookRow (p : OrderbookPayload) : Option OrderbookRow :=
  match p.timestamp, p.symbol with
  | some t, some sy =>
      some { timestamp := t, symbol := sy, bids := p.bids, asks := p.asks,
             nonce := p.nonce, datetime_ := p.datetime_ }
  | _, _ => none

/-- `SQLiteStorage.insert_orderbook`: append-only insert plus retention
cleanup. -/
def insert_orderbook (p : OrderbookPayload) (now : Int) (s : Shard) :
    Option SqlErr × Shard :=
  match mkOrderbookRow p with
  | none => (some .integrity, s)
  | some r =>
      (none, cleanup_old_records now { s with orderbook := s.orderbook ++ [r] })

/-- The ccxt trade payload as projected by `insert_trades`
(`trade.get("fee", {}).get(...)` flattened into the two fee fields). -/
structure TradePayload where
  id : Option String
  timestamp : Option Int
  symbol : Option String
  side : Option String
  price : Option Rat
  amount : Option Rat
  cost : Option Rat
  order : Option String
  takerOrMaker : Option String
  feeCost : Option Rat
  feeCurrency : Option String
  info : String
  deriving DecidableEq, Repr

/-- Row the `INSERT OR IGNORE INTO trades` statement tries to write; `none`
when a `NOT NULL` column would receive `NULL` (that `IntegrityError` is caught
and the trade skipped). -/
def mkTradeRow (p : TradePayload) : Option TradeRow :=
  match p.timestamp, p.symbol, p.side, p.price, p.amount with
  | some t, some sy, some sd, some pr, some am =>
      some { id := p.id, timestamp := t, symbol := sy, side := sd, price := pr,
             amount := am, cost := p.cost, order_id := p.order,
             taker_or_maker := p.takerOrMaker, fee_cost := p.feeCost,
             fee_currency := p.feeCurrency, info := p.info }
  | _, _, _, _, _ => none

/-- One loop iteration of `insert_trades`: `INSERT OR IGNORE` keyed on the
`id` primary key (a `NULL` id never conflicts), counting a row only when
`cursor.rowcount > 0`. -/
def insertTradeStep (acc : List TradeRow × Nat) (p : TradePayload) :
    List TradeRow × Nat :=
  match mkTradeRow p with
  | none => acc
  | some r =>
      match r.id with
      | some i =>
          if acc.1.any (fun q => q.id = some i) then acc
          else (acc.1 ++ [r], acc.2 + 1)
      | none => (acc.1 ++ [r], acc.2 + 1)

/-- `SQLiteStorage.insert_trades`: early-return `0` on an empty batch, else
insert-or-ignore each trade, run retention cleanup, and return the number of
rows actually added. -/
def insert_trades (ps : List TradePayload) (now : Int) (s : Shard) :
    Nat × Shard :=
  match ps with
  | [] => (0, s)
  | _ =>
      let acc := ps.foldl insertTradeStep (s.trades, 0)
      (acc.2, cleanup_old_records now { s with trades := acc.1 })

/-- One ccxt OHLCV array `[timestamp, open, high, low, close, volume]` as
read by `insert_ohlcv` at indices 0..5 (entries may be `None`). -/
structure Candle where
  timestamp : Option Int
  open_ : Option Rat
  high : Option Rat
  low : Option Rat
  close : Option Rat
  volume : Option Rat
  deriving DecidableEq, Repr

/-- Row the `INSERT OR REPLACE INTO ohlcv` statement tries to write; `none`
when a `NOT NULL` column would receive `NULL` (caught and skipped). -/
def mkOhlcvRow (sym tf : String) (c : Candle) : Option OhlcvRow :=
  match c.timestamp, c.open_, c.high, c.low, c.close, c.volume with
  | some t, some o, some h, some l, some cl, some v =>
      some { timestamp := t, symbol := sym, timeframe := tf, open_ := o,
             high := h, low := l, close := cl, volume := v }
  | _, _, _, _, _, _ => none

/-- One loop iteration of `insert_ohlcv`: `INSERT OR REPLACE` on the
`(timestamp, timeframe)` primary key deletes any conflicting row and appends
the new one; `rowcount` is positive for every successful write. -/
def insertOhlcvStep (sym tf : String) (acc : List OhlcvRow × Nat) (c : Candle) :
    List OhlcvRow × Nat :=
  match mkOhlcvRow sym tf c with
  | none => acc
  | some r =>
      (acc.1.filter
         (fun q => ¬(q.timestamp = r.timestamp ∧ q.timeframe = r.timeframe))
         ++ [r],
       acc.2 + 1)

/-- `SQLiteStorage.insert_ohlcv`: early-return `0` on an empty batch, else
insert-or-replace each candle, run retention cleanup, and return the number of
candles written. -/
def insert_ohlcv (tf : String) (cs : List Candle) (now : Int) (s : Shard) :
    Nat × Shard :=
  match cs with
  | [] => (0, s)
  | _ =>
      let acc := cs.foldl (insertOhlcvStep s.symbol tf) (s.ohlcv, 0)
      (acc.2, cleanup_old_records now { s with ohlcv := acc.1 })

/-- The funding-rate payload as projected by `insert_funding_rate`. -/
structure FundingRatePayload where
  timestamp : Option Int
  symbol : Option String
  fundingRate : Option Rat
  fundingTimestamp : Option Int
  info : String
  deriving DecidableEq, Repr

/-- SQLite rowid auto-assignment for an unqualified `INTEGER PRIMARY KEY`
rowid-alias column receiving `NULL`: one more than the largest rowid in use,
or 1 for an empty table (the near-overflow random fallback is out of range
here). Verified against live SQLite, including negative rowids. -/
def autoRowid (used : List Int) : Int :=
  match used with
  | [] => 1
  | x :: xs => xs.foldl max x + 1

/-- Every rowid in use is strictly below the auto-assigned one. -/
theorem lt_autoRowid (used : List Int) (y : Int) (hy : y ∈ used) :
    y < autoRowid used := by
  have key : ∀ (xs : List Int) (x : Int), ∀ z ∈ x :: xs, z ≤ xs.foldl max x := by
    intro xs
    induction xs with
    | nil =>
        intro x z hz
        rw [List.mem_singleton] at hz
        exact le_of_eq hz
    | cons w ws ih =>
        intro x z hz
        rcases List.mem_cons.mp hz with hz | hz
        · exact le_trans (le_of_eq hz)
            (le_trans (le_max_left x w)
              (ih (max x w) (max x w) (List.mem_cons_self ..)))
        · rcases List.mem_cons.mp hz with hz | hz
          · exact le_trans (le_of_eq hz)
              (le_trans (le_max_right x w)
                (ih (max x w) (max x w) (List.mem_cons_self ..)))
          · exact ih (max x w) z (List.mem_cons_of_mem _ hz)
  cases used with
  | nil => exact absurd hy (List.not_mem_nil y)
  | cons x xs =>
      have := key xs x y hy
      show y < xs.foldl max x + 1
      omega

/-- `SQLiteStorage.insert_funding_rate`: `INSERT OR REPLACE` keyed on the
`timestamp` primary key, plus retention cleanup. `timestamp INTEGER NOT NULL
PRIMARY KEY` is a rowid alias, so a `NULL` timestamp does **not** abort:
SQLite auto-assigns the next unused rowid and the row is stored. A `NULL`
`symbol` or `funding_rate` (no default) makes REPLACE fall back to ABORT:
`IntegrityError` propagates and the transaction rolls back. -/
def insert_funding_rate (p : FundingRatePayload) (now : Int) (s : Shard) :
    Option SqlErr × Shard :=
  match p.symbol, p.fundingRate with
  | some sy, some fr =>
      let t :=
        match p.timestamp with
        | some t0 => t0
        | none => autoRowid (s.funding_rate.map FundingRateRow.timestamp)
      let r : FundingRateRow :=
        { timestamp := t, symbol := sy, funding_rate := fr,
          funding_timestamp := p.fundingTimestamp, info := p.info }
      (none, cleanup_old_records now
        { s with funding_rate :=
            s.funding_rate.filter (fun q => ¬ q.timestamp = r.timestamp) ++ [r] })
  | _, _ => (some .integrity, s)

/-- The mark-price payload as projected by `insert_mark_price`'s
`data.get("timestamp")`, `data.get("symbol")`, `data.get("markPrice")`,
`data.get("indexPrice")`. -/
structure MarkPricePayload where
  timestamp : Option Int
  symbol : Option String
  markPrice : Option Rat
  indexPrice : Option Rat
  info : String
  deriving DecidableEq, Repr

/-- `SQLiteStorage.insert_mark_price`: `INSERT OR REPLACE` keyed on the
`timestamp` rowid-alias primary key, plus retention cleanup. As for the
funding-rate table, a `NULL` timestamp is auto-assigned the next unused
rowid and the row is stored; a `NULL` `symbol` or `mark_price` aborts with
`IntegrityError` and the transaction rolls back, leaving the shard
unchanged. -/
def insert_mark_price (p : MarkPricePayload) (now : Int) (s : Shard) :
    Option SqlErr × Shard :=
  match p.symbol, p.markPrice with
  | some sy, some mp =>
      let t :=
        match p.timestamp with
        | some t0 => t0
        | none => autoRowid (s.mark_price.map MarkPriceRow.timestamp)
      let r : MarkPriceRow :=
        { timestamp := t, symbol := sy, mark_price := mp,
          index_price := p.indexPrice, info := p.info }
      (none, cleanup_old_records now
        { s with mark_price :=
            s.mark_price.filter (fun q => ¬ q.timestamp = r.timestamp) ++ [r] })
  | _, _ => (some .integrity, s)

/-- `timestamp >= start_time` / `timestamp <= end_time` filters, each added to
the `WHERE` clause only when the corresponding argument is not `None`; both
bounds are inclusive. -/
def inWindow (start_time end_time : Option Int) (ts : Int) : Bool :=
  start_time.all (fun a => a ≤ ts) && end_time.all (fun b => ts ≤ b)

/-- The `LIMIT ?` clause, added only when a limit is given (modelled for
non-negative limits). -/
def takeLimit (limit : Option Nat) (l : List α) : List α :=
  match limit with
  | none => l
  | some n => l.take n

/-- `ORDER BY timestamp DESC` as a relation on rows with timestamp key `f`. -/
def tsDesc (f : α → Int) (a b : α) : Prop := f b ≤ f a

/-- `ORDER BY timestamp ASC` as a relation on rows with timestamp key `f`. -/
def tsAsc (f : α → Int) (a b : α) : Prop := f a ≤ f b

instance (f : α → Int) : DecidableRel (tsDesc f) := fun a b =>
  inferInstanceAs (Decidable (f b ≤ f a))

instance (f : α → Int) : DecidableRel (tsAsc f) := fun a b =>
  inferInstanceAs (Decidable (f a ≤ f b))

instance (f : α → Int) : IsTotal α (tsDesc f) := ⟨fun a b => le_total (f b) (f a)⟩

instance (f : α → Int) : IsTotal α (tsAsc f) := ⟨fun a b => le_total (f a) (f b)⟩

instance (f : α → Int) : IsTrans α (tsDesc f) :=
  ⟨fun _ _ _ h h' => le_trans h' h⟩

instance (f : α → Int) : IsTrans α (tsAsc f) :=
  ⟨fun _ _ _ h h' => le_trans h h'⟩

/-- Shared shape of the six query methods: filter by the inclusive window (and
any extra `WHERE` condition `pred`), order by timestamp, apply the limit.
SQLite's ordering among equal timestamps is unspecified; any total ordering by
the key is a faithful model for the ordering/window/limit properties. -/
def runQuery (f : α → Int) (r : α → α → Prop) [DecidableRel r]
    (pred : α → Bool) (start_time end_time : Option Int) (limit : Option Nat)
    (rows : List α) : List α :=
  takeLimit limit
    (List.insertionSort r
      (rows.filter (fun x => pred x && inWindow start_time end_time (f x))))

/-- `SQLiteStorage.query_ticker`: window filter, `ORDER BY timestamp DESC`,
optional limit. -/
def query_ticker (s : Shard) (start_time end_time : Option Int)
    (limit : Option Nat) : List TickerRow :=
  runQuery TickerRow.timestamp (tsDesc TickerRow.timestamp) (fun _ => true)
    start_time end_time limit s.ticker

/-- `SQLiteStorage.query_orderbook`: window filter, `ORDER BY timestamp DESC`,
optional limit. -/
def query_orderbook (s : Shard) (start_time end_time : Option Int)
    (limit : Option Nat) : List OrderbookRow :=
  runQuery OrderbookRow.timestamp (tsDesc OrderbookRow.timestamp) (fun _ => true)
    start_time end_time limit s.orderbook

/-- `SQLiteStorage.query_trades`: window filter, `ORDER BY timestamp DESC`,
optional limit. -/
def query_trades (s : Shard) (start_time end_time : Option Int)
    (limit : Option Nat) : List TradeRow :=
  runQuery TradeRow.timestamp (tsDesc TradeRow.timestamp) (fun _ => true)
    start_time end_time limit s.trades

/-- `SQLiteStorage.query_ohlcv`: `WHERE timeframe = ?` plus window filter,
`ORDER BY timestamp ASC`, optional limit. -/
def query_ohlcv (s : Shard) (tf : String) (start_time end_time : Option Int)
    (limit : Option Nat) : List OhlcvRow :=
  runQuery OhlcvRow.timestamp (tsAsc OhlcvRow.timestamp)
    (fun r => r.timeframe = tf) start_time end_time limit s.ohlcv

/-- `SQLiteStorage.query_funding_rate`: window filter,
`ORDER BY timestamp DESC`, optional limit. -/
def query_funding_rate (s : Shard) (start_time end_time : Option Int)
    (limit : Option Nat) : List FundingRateRow :=
  runQuery FundingRateRow.timestamp (tsDesc FundingRateRow.timestamp)
    (fun _ => true) start_time end_time limit s.funding_rate

/-- `SQLiteStorage.query_mark_price`: window filter,
`ORDER BY timestamp DESC`, optional limit. -/
def query_mark_price (s : Shard) (start_time end_time : Option Int)
    (limit : Option Nat) : List MarkPriceRow :=
  runQuery MarkPriceRow.timestamp (tsDesc MarkPriceRow.timestamp)
    (fun _ => true) start_time end_time limit s.mark_price

/-- The slice of `MarketDataSettings` the orchestrator reads: the symbol list
and the `intervals: Dict[str, str]` mapping (an association list with unique
keys, values always strings by the config model). -/
structure MarketDataSettings where
  symbols : List String
  intervals : List (String × String)
  deriving DecidableEq, Repr

/-- Python `key in self.settings.intervals`. -/
def hasIntervalKey (st : MarketDataSettings) (key : String) : Bool :=
  (List.lookup key st.intervals).isSome

/-- Python `str.split(",")` on the character sequence: always at least one
piece, the empty string yielding `[""]`. -/
def pySplitComma (cs : List Char) : List (List Char) :=
  match cs with
  | [] => [[]]
  | c :: rest =>
      let r := pySplitComma rest
      if c = ',' then [] :: r
      else
        match r with
        | h :: t => (c :: h) :: t
        | [] => [[c]]

/-- Python `str.strip()`: remove leading and trailing whitespace. -/
def pyStrip (cs : List Char) : List Char :=
  ((cs.dropWhile Char.isWhitespace).reverse.dropWhile Char.isWhitespace).reverse

/-- `SubscriptionManager._parse_ohlcv_timeframes`: take the `"klines"`
interval (defaulting to `"1m"` when unconfigured), split on commas and strip
each entry; the `isinstance(…, str)` branch always holds since interval
values are strings, and the empty-list default is kept as in the source. -/
def parse_ohlcv_timeframes (st : MarketDataSettings) : List String :=
  let klines_interval := (List.lookup "klines" st.intervals).getD "1m"
  let timeframes :=
    (pySplitComma klines_interval.data).map (fun l => String.mk (pyStrip l))
  if timeframes.isEmpty then ["1m"] else timeframes

/-- The identity of one subscription task: its data kind (with the timeframe
for OHLCV tasks). -/
inductive TaskKind where
  | ticker
  | orderbook
  | trades
  | ohlcv (timeframe : String)
  | funding
  | mark_price
  deriving DecidableEq, Repr

/-- One `asyncio` task created by `SubscriptionManager.start`, identified by
(symbol, kind[, timeframe]) as in its diagnostic name. -/
structure SubTask where
  symbol : String
  kind : TaskKind
  deriving DecidableEq, Repr

/-- The tasks `SubscriptionManager.start` creates for one symbol, in source
order: ticker if `"ticker"` or `"klines"` is configured; orderbook if
`"orderbook_snapshot"`; trades if `"trades"`; one OHLCV task per parsed
timeframe (unconditionally — the source has no `klines` guard around that
loop); funding if `"funding"`; mark price if `"mark_price"` or `"funding"`. -/
def tasksForSymbol (st : MarketDataSettings) (sym : String) : List SubTask :=
  (if hasIntervalKey st "ticker" || hasIntervalKey st "klines" then
     [⟨sym, .ticker⟩] else [])
  ++ (if hasIntervalKey st "orderbook_snapshot" then [⟨sym, .orderbook⟩] else [])
  ++ (if hasIntervalKey st "trades" then [⟨sym, .trades⟩] else [])
  ++ (parse_ohlcv_timeframes st).map (fun tf => ⟨sym, .ohlcv tf⟩)
  ++ (if hasIntervalKey st "funding" then [⟨sym, .funding⟩] else [])
  ++ (if hasIntervalKey st "mark_price" || hasIntervalKey st "funding" then
        [⟨sym, .mark_price⟩] else [])

/-- All tasks `SubscriptionManager.start` creates: the per-symbol tasks for
each configured symbol. -/
def startTasks (st : MarketDataSettings) : List SubTask :=
  st.symbols.flatMap (tasksForSymbol st)

/-- The `SubscriptionManager` lifecycle state: the `_running` flag, the
`_stop_event`, and the `_tasks` set (as a list; task objects are distinct). -/
structure SubscriptionManager where
  running : Bool
  stop_event : Bool
  tasks : List SubTask
  deriving DecidableEq, Repr

/-- `SubscriptionManager.__init__`: not running, no tasks, stop event unset. -/
def initManager : SubscriptionManager :=
  { running := false, stop_event := false, tasks := [] }

/-- `SubscriptionManager.start`: a repeat call while running returns after a
log line; otherwise set `_running`, clear `_stop_event` and add one task per
symbol × kind. -/
def SubscriptionManager.start (st : MarketDataSettings)
    (m : SubscriptionManager) : SubscriptionManager :=
  if m.running then m
  else { running := true, stop_event := false, tasks := m.tasks ++ startTasks st }

/-- `SubscriptionManager.stop`: a call while not running returns after a log
line; otherwise clear `_running`, set `_stop_event`, cancel and await every
task, and clear the task set. -/
def SubscriptionManager.stop (m : SubscriptionManager) : SubscriptionManager :=
  if !m.running then m
  else { running := false, stop_event := true, tasks := [] }

/-- `SubscriptionManager.task_count`. -/
def SubscriptionManager.task_count (m : SubscriptionManager) : Nat :=
  m.tasks.length

/-- The `RuntimeError` raised by `Runtime._lock_file_exclusive` when the
non-blocking exclusive lock cannot be taken. -/
inductive LockErr where
  | conflict
  deriving DecidableEq, Repr

/-- The `Runtime` lifecycle state. Reader tokens (`uuid4().hex` in the
source) are modelled by the fresh counter `next_token`, which captures their
uniqueness; `active_readers` is the token → name dictionary in insertion
order. Collector/cleanup callbacks and signal handlers are external effects;
the group-activation flag `_collectors_started` is kept. -/
structure Runtime where
  lock_acquired : Bool
  running : Bool
  stop_event : Bool
  active_readers : List (Nat × Option String)
  collectors_started : Bool
  next_token : Nat
  deriving DecidableEq, Repr

/-- `Runtime.__init__`. -/
def initRuntime : Runtime :=
  { lock_acquired := false
    running := false
    stop_event := false
    active_readers := []
    collectors_started := false
    next_token := 0 }

/-- `Runtime._start_collectors`: invoke every registered start callback
(external effect), then mark the group started; a no-op if already started. -/
def start_collectors (st : Runtime) : Runtime :=
  if st.collectors_started then st else { st with collectors_started := true }

/-- `Runtime._stop_collectors`: a no-op unless the group is started. -/
def stop_collectors (st : Runtime) : Runtime :=
  if !st.collectors_started then st else { st with collectors_started := false }

/-- `Runtime._acquire_process_lock`: skip if this instance already holds the
lock; otherwise write the pid and attempt `flock(LOCK_EX | LOCK_NB)`, which
fails — raising `RuntimeError` at once, never blocking — exactly when another
holder has the exclusive lock on the same path (`locked_elsewhere`). On
failure the opened file is closed and no instance state is changed. -/
def acquire_process_lock (locked_elsewhere : Bool) (st : Runtime) :
    Option LockErr × Runtime :=
  if st.lock_acquired then (none, st)
  else if locked_elsewhere then (some .conflict, st)
  else (none, { st with lock_acquired := true })

/-- `Runtime.start`: a no-op while running; otherwise acquire the process
lock (a failure propagates with the state untouched), clear the stop event,
install signal handlers and the atexit hook (external effects), mark running,
and start the collector group if readers are already active. -/
def Runtime.start (locked_elsewhere : Bool) (st : Runtime) :
    Option LockErr × Runtime :=
  if st.running then (none, st)
  else
    match acquire_process_lock locked_elsewhere st with
    | (some e, st1) => (some e, st1)
    | (none, st1) =>
        let st2 := { st1 with stop_event := false, running := true }
        (none, if !st2.active_readers.isEmpty then start_collectors st2 else st2)

/-- `Runtime.stop`: a no-op when neither running nor holding the lock;
otherwise set the stop event, stop collectors, cancel tasks and run cleanup
callbacks (external effects), release the lock and clear all bookkeeping. -/
def Runtime.stop (st : Runtime) : Runtime :=
  if !st.running && !st.lock_acquired then st
  else
    { st with
      stop_event := true
      collectors_started := false
      active_readers := []
      running := false
      lock_acquired := false }

/-- `Runtime.acquire_reader`: auto-start the runtime if needed (propagating a
lock failure), mint a fresh token, record it in the active set, and start the
collector group if it is not yet started. -/
def Runtime.acquire_reader (locked_elsewhere : Bool) (name : Option String)
    (st : Runtime) : Option LockErr × Option Nat × Runtime :=
  match Runtime.start locked_elsewhere st with
  | (some e, st1) => (some e, none, st1)
  | (none, st1) =>
      let token := st1.next_token
      let st2 := { st1 with
        active_readers := st1.active_readers ++ [(token, name)]
        next_token := token + 1 }
      (none, some token,
        if !st2.collectors_started then start_collectors st2 else st2)

/-- `Runtime.release_reader`: ignore an unknown token; otherwise remove it
from the active set and stop the collector group exactly when the set became
empty. -/
def Runtime.release_reader (token : Nat) (st : Runtime) : Runtime :=
  if !st.active_readers.any (fun p => p.1 = token) then st
  else
    let st1 := { st with
      active_readers := st.active_readers.filter (fun p => p.1 ≠ token) }
    if st1.active_readers.isEmpty then stop_collectors st1 else st1

/-- `acquire_reader` iterated over a list of reader names, collecting the
minted tokens (defined for a running runtime, where no lock error occurs). -/
def acquireMany (names : List (Option String)) (st : Runtime) :
    List Nat × Runtime :=
  match names with
  | [] => ([], st)
  | n :: rest =>
      match Runtime.acquire_reader false n st with
      | (_, some t, st1) =>
          let (ts, st2) := acquireMany rest st1
          (t :: ts, st2)
      | (_, none, st1) => acquireMany rest st1

/-- `release_reader` iterated over a list of tokens. -/
def releaseMany (tokens : List Nat) (st : Runtime) : Runtime :=
  tokens.foldl (fun s t => Runtime.release_reader t s) st

/-- The `data` dict enqueued by `SubscriptionManager._subscribe_mark_price`,
projected onto the fields `insert_mark_price` reads: the dict is
`{"symbol": symbol, "mark_price": mark_price, "timestamp": None}`, so
`data.get("timestamp")` is `None` by construction, and
`data.get("markPrice")`/`data.get("indexPrice")` are absent keys (the price
sits under the key `"mark_price"`); `str(data.get("info", \x7b\x7d))`
stringifies the absent-info default. -/
def markPriceEnvelopeData (sym : String) : MarkPricePayload :=
  { timestamp := none
    symbol := some sym
    markPrice := none
    indexPrice := none
    info := "\x7b\x7d" }

/-- Sample empty shard for concrete witnesses. -/
def emptyShard : Shard :=
  { symbol := "BTC/USDT:USDT", ticker := [], orderbook := [], trades := [],
    ohlcv := [], funding_rate := [], mark_price := [] }

/-- Sample trade payload (all `NOT NULL` columns present, id `"T1"`). -/
def sampleTradePayload : TradePayload :=
  { id := some "T1", timestamp := some 3, symbol := some "BTC/USDT:USDT",
    side := some "buy", price := some 5, amount := some 2, cost := none,
    order := none, takerOrMaker := none, feeCost := none, feeCurrency := none,
    info := "\x7b\x7d" }

/-- A second sample trade payload with the same id `"T1"` but other values. -/
def sampleTradePayloadDup : TradePayload :=
  { id := some "T1", timestamp := some 4, symbol := some "BTC/USDT:USDT",
    side := some "sell", price := some 6, amount := some 1, cost := none,
    order := none, takerOrMaker := none, feeCost := none, feeCurrency := none,
    info := "\x7b\x7d" }

/-- Sample candle at timestamp 3. -/
def sampleCandle : Candle :=
  { timestamp := some 3, open_ := some 1, high := some 2, low := some 1,
    close := some 2, volume := some 9 }

/-- A stale trade row older than any non-negative clock's retention cutoff. -/
def staleTradeRow : TradeRow :=
  { id := some "OLD", timestamp := -700000000, symbol := "BTC/USDT:USDT",
    side := "buy", price := 1, amount := 1, cost := none, order_id := none,
    taker_or_maker := none, fee_cost := none, fee_currency := none,
    info := "\x7b\x7d" }

/-- A shard holding only the stale trade row. -/
def staleShard : Shard :=
  { emptyShard with trades := [staleTradeRow] }

/-- C10 — calling `insert_trades` or `insert_ohlcv` with an empty batch
returns 0 and leaves the shard entirely unchanged; in particular no retention
pruning runs, so rows older than the retention boundary survive such a
call. -/
theorem c10_empty_batch_insert_is_noop (tf : String) (now : Int) (s : Shard) :
    insert_trades [] now s = (0, s) ∧
    insert_ohlcv tf [] now s = (0, s) ∧
    (∀ r ∈ s.trades, r.timestamp < cutoff now →
       r ∈ (insert_trades [] now s).2.trades) ∧
    (∀ r ∈ s.ohlcv, r.timestamp < cutoff now →
       r ∈ (insert_ohlcv tf [] now s).2.ohlcv) :=
  ⟨rfl, rfl, fun _ hr _ => hr, fun _ hr _ => hr⟩

/-- C10 witness: the stale trade row survives an empty-batch insert at clock
0, although it is older than the cutoff. -/
theorem c10_empty_batch_insert_is_noop_witness :
    staleTradeRow ∈ (insert_trades [] 0 staleShard).2.trades := by
  refine (c10_empty_batch_insert_is_noop "1m" 0 staleShard).2.2.1
    staleTradeRow ?_ ?_
  · simp [staleShard, emptyShard]
  · simp [staleTradeRow, cutoff, RETENTION_MS]

/-- `_parse_ohlcv_timeframes` always yields at least one timeframe. -/
theorem parse_ohlcv_timeframes_ne_nil (st : MarketDataSettings) :
    parse_ohlcv_timeframes st ≠ [] := by
  intro h
  simp only [parse_ohlcv_timeframes] at h
  split at h
  · exact absurd h (by simp)
  · next hne => exact hne (by simp [h])

/-- `tasksForSymbol` always yields at least one task (the OHLCV tasks are
created unconditionally). -/
theorem tasksForSymbol_ne_nil (st : MarketDataSettings) (sym : String) :
    tasksForSymbol st sym ≠ [] := by
  obtain ⟨tf, rest, htf⟩ :=
    List.exists_cons_of_ne_nil (parse_ohlcv_timeframes_ne_nil st)
  intro h
  have hmem : (⟨sym, TaskKind.ohlcv tf⟩ : SubTask) ∈ tasksForSymbol st sym := by
    simp [tasksForSymbol, htf]
  rw [h] at hmem
  exact absurd hmem (List.not_mem_nil _)

/-- C8 — orchestrator lifecycle: `task_count = 0` on the fresh manager; after
`start()` with at least one configured symbol it is positive; `stop()` while
running returns it to 0; `stop()` while not running is a no-op; a repeat
`start()` while running changes nothing. -/
theorem c8_manager_lifecycle (st : MarketDataSettings)
    (m : SubscriptionManager) :
    initManager.task_count = 0 ∧
    (st.symbols ≠ [] → 0 < (initManager.start st).task_count) ∧
    (m.running = true → m.stop.task_count = 0) ∧
    (m.running = false → m.stop = m) ∧
    (m.running = true → m.start st = m) := by
  refine ⟨rfl, ?_, ?_, ?_, ?_⟩
  · intro hsym
    obtain ⟨sym, rest, hst⟩ := List.exists_cons_of_ne_nil hsym
    have h1 := tasksForSymbol_ne_nil st sym
    have h2 : 0 < (tasksForSymbol st sym).length := List.length_pos.mpr h1
    simp only [SubscriptionManager.start, initManager, SubscriptionManager.task_count,
      startTasks, hst, Bool.false_eq_true, if_false, List.nil_append,
      List.flatMap_cons, List.length_append]
    omega
  · intro h
    simp [SubscriptionManager.stop, SubscriptionManager.task_count, h]
  · intro h
    simp [SubscriptionManager.stop, h]
  · intro h
    simp [SubscriptionManager.start, h]

/-- C9 counterexample — a mark-price payload whose `timestamp` is `None` but
whose other `NOT NULL` fields are present is *not* rejected: the rowid-alias
primary key auto-assigns timestamp 1 on the empty shard and the row is
stored. -/
theorem c9_counterexample :
    (insert_mark_price
        { timestamp := none, symbol := some "BTC/USDT:USDT",
          markPrice := some 123, indexPrice := none, info := "\x7b\x7d" }
        0 emptyShard).1 = none ∧
    (insert_mark_price
        { timestamp := none, symbol := some "BTC/USDT:USDT",
          markPrice := some 123, indexPrice := none, info := "\x7b\x7d" }
        0 emptyShard).2.mark_price
      = [{ timestamp := 1, symbol := "BTC/USDT:USDT", mark_price := 123,
           index_price := none, info := "\x7b\x7d" }] := by
  exact ⟨by decide, by decide⟩

/-- C9 amended — a mark-price (resp. funding-rate) payload with a `NULL`
`symbol` or `mark_price` (resp. `funding_rate`) raises `IntegrityError` and
the rollback leaves the shard unchanged; a `NULL` timestamp alone does *not*
raise: the rowid-alias primary key auto-assigns the next unused integer and
the row is stored (and then pruned normally, so it survives when the
auto-assigned value is inside the retention window). The orchestrator's
mark-price envelopes are still rejected as-is — but because the derived
price sits under the dict key `"mark_price"`, so the `markPrice` field
`insert_mark_price` reads is `None` and the `NOT NULL` `mark_price` column
aborts, not because of the timestamp. -/
theorem c9_null_handling_amended (now : Int) (s : Shard) :
    (∀ p : MarkPricePayload, p.symbol = none ∨ p.markPrice = none →
       insert_mark_price p now s = (some .integrity, s)) ∧
    (∀ p : FundingRatePayload, p.symbol = none ∨ p.fundingRate = none →
       insert_funding_rate p now s = (some .integrity, s)) ∧
    (∀ (p : MarkPricePayload) (sy : String) (v : Rat),
       p.timestamp = none → p.symbol = some sy → p.markPrice = some v →
       (insert_mark_price p now s).1 = none ∧
       (cutoff now ≤ autoRowid (s.mark_price.map MarkPriceRow.timestamp) →
          ({ timestamp := autoRowid (s.mark_price.map MarkPriceRow.timestamp),
             symbol := sy, mark_price := v, index_price := p.indexPrice,
             info := p.info } : MarkPriceRow)
            ∈ (insert_mark_price p now s).2.mark_price)) ∧
    (∀ (p : FundingRatePayload) (sy : String) (v : Rat),
       p.timestamp = none → p.symbol = some sy → p.fundingRate = some v →
       (insert_funding_rate p now s).1 = none ∧
       (cutoff now ≤ autoRowid (s.funding_rate.map FundingRateRow.timestamp) →
          ({ timestamp :=
               autoRowid (s.funding_rate.map FundingRateRow.timestamp),
             symbol := sy, funding_rate := v,
             funding_timestamp := p.fundingTimestamp,
             info := p.info } : FundingRateRow)
            ∈ (insert_funding_rate p now s).2.funding_rate)) ∧
    (∀ sym : String,
       insert_mark_price (markPriceEnvelopeData sym) now s
         = (some .integrity, s)) := by
  refine ⟨?_, ?_, ?_, ?_, ?_⟩
  · intro p hp
    rcases hp with hp | hp <;>
      · unfold insert_mark_price
        rcases h1 : p.symbol with _ | sy <;> rcases h2 : p.markPrice with _ | v <;>
          simp_all
  · intro p hp
    rcases hp with hp | hp <;>
      · unfold insert_funding_rate
        rcases h1 : p.symbol with _ | sy <;>
          rcases h2 : p.fundingRate with _ | v <;> simp_all
  · intro p sy v hts hsy hmp
    unfold insert_mark_price
    rw [hsy, hmp]
    simp only [hts]
    refine ⟨trivial, fun hret => ?_⟩
    exact List.mem_filter.mpr
      ⟨List.mem_append_right _ (List.mem_singleton_self _),
       decide_eq_true hret⟩
  · intro p sy v hts hsy hmp
    unfold insert_funding_rate
    rw [hsy, hmp]
    simp only [hts]
    refine ⟨trivial, fun hret => ?_⟩
    exact List.mem_filter.mpr
      ⟨List.mem_append_right _ (List.mem_singleton_self _),
       decide_eq_true hret⟩
  · intro sym
    unfold insert_mark_price
    rfl

/-- C9 amended witness: the orchestrator envelope is rejected with the shard
unchanged, while a timestampless but otherwise valid payload is stored with
the auto-assigned timestamp 1. -/
theorem c9_null_handling_amended_witness :
    insert_mark_price (markPriceEnvelopeData "BTC/USDT:USDT") 0 emptyShard
      = (some .integrity, emptyShard) ∧
    (insert_mark_price
        { timestamp := none, symbol := some "BTC/USDT:USDT",
          markPrice := some 5, indexPrice := none, info := "\x7b\x7d" }
        0 emptyShard).1 = none ∧
    ({ timestamp := 1, symbol := "BTC/USDT:USDT", mark_price := 5,
       index_price := none, info := "\x7b\x7d" } : MarkPriceRow)
      ∈ (insert_mark_price
          { timestamp := none, symbol := some "BTC/USDT:USDT",
            markPrice := some 5, indexPrice := none, info := "\x7b\x7d" }
          0 emptyShard).2.mark_price := by
  have h := c9_null_handling_amended 0 emptyShard
  have hsucc := h.2.2.1
    { timestamp := none, symbol := some "BTC/USDT:USDT", markPrice := some 5,
      indexPrice := none, info := "\x7b\x7d" } "BTC/USDT:USDT" 5 rfl rfl rfl
  exact ⟨h.2.2.2.2 "BTC/USDT:USDT", hsucc.1, hsucc.2 (by decide)⟩

/-- Whether `start()` creates a task of the given kind for a configured
symbol, read off the guards in the source: note the OHLCV arm depends only on
the parsed timeframes, not on a `"klines"` guard. -/
def kindEnabled (st : MarketDataSettings) : TaskKind → Prop
  | .ticker => (hasIntervalKey st "ticker" || hasIntervalKey st "klines") = true
  | .orderbook => hasIntervalKey st "orderbook_snapshot" = true
  | .trades => hasIntervalKey st "trades" = true
  | .ohlcv tf => tf ∈ parse_ohlcv_timeframes st
  | .funding => hasIntervalKey st "funding" = true
  | .mark_price =>
      (hasIntervalKey st "mark_price" || hasIntervalKey st "funding") = true

/-- Membership in the per-symbol task list is exactly `kindEnabled`. -/
theorem mem_tasksForSymbol (st : MarketDataSettings) (sy : String)
    (t : SubTask) :
    t ∈ tasksForSymbol st sy ↔ t.symbol = sy ∧ kindEnabled st t.kind := by
  obtain ⟨tsym, tkind⟩ := t
  cases tkind <;>
    (simp [tasksForSymbol, kindEnabled, List.mem_ite_nil_right]; try tauto)

/-- C4 counterexample — with one symbol and an empty `intervals` mapping (so
`"klines"` is *not* configured) `start()` still creates an OHLCV task, with
the defaulted timeframe `"1m"`; the claim's "one OHLCV task per parsed
timeframe iff klines are configured" therefore fails. -/
theorem c4_counterexample :
    hasIntervalKey ⟨["BTC/USDT:USDT"], []⟩ "klines" = false ∧
    startTasks ⟨["BTC/USDT:USDT"], []⟩
      = [⟨"BTC/USDT:USDT", .ohlcv "1m"⟩] := by
  constructor
  · rfl
  · decide

/-- C4 amended — `start()` creates, per configured symbol: a ticker task iff
`"ticker"` or `"klines"` is configured; an order-book task iff
`"orderbook_snapshot"` is configured; a trades task iff `"trades"` is
configured; one OHLCV task per parsed timeframe **unconditionally** (the
timeframes defaulting to `["1m"]` when `"klines"` is unconfigured); a funding
task iff `"funding"` is configured; a mark-price task iff `"mark_price"` or
`"funding"` is configured. -/
theorem c4_start_task_set_amended (st : MarketDataSettings) (sym : String) :
    ((⟨sym, .ticker⟩ : SubTask) ∈ startTasks st ↔
       sym ∈ st.symbols ∧
         (hasIntervalKey st "ticker" || hasIntervalKey st "klines") = true) ∧
    ((⟨sym, .orderbook⟩ : SubTask) ∈ startTasks st ↔
       sym ∈ st.symbols ∧ hasIntervalKey st "orderbook_snapshot" = true) ∧
    ((⟨sym, .trades⟩ : SubTask) ∈ startTasks st ↔
       sym ∈ st.symbols ∧ hasIntervalKey st "trades" = true) ∧
    (∀ tf, (⟨sym, .ohlcv tf⟩ : SubTask) ∈ startTasks st ↔
       sym ∈ st.symbols ∧ tf ∈ parse_ohlcv_timeframes st) ∧
    ((⟨sym, .funding⟩ : SubTask) ∈ startTasks st ↔
       sym ∈ st.symbols ∧ hasIntervalKey st "funding" = true) ∧
    ((⟨sym, .mark_price⟩ : SubTask) ∈ startTasks st ↔
       sym ∈ st.symbols ∧
         (hasIntervalKey st "mark_price" || hasIntervalKey st "funding") = true) := by
  have base : ∀ t : SubTask, t ∈ startTasks st ↔
      t.symbol ∈ st.symbols ∧ kindEnabled st t.kind := by
    intro t
    simp only [startTasks, List.mem_flatMap]
    constructor
    · rintro ⟨sy, hsy, hmem⟩
      obtain ⟨hts, hk⟩ := (mem_tasksForSymbol st sy t).mp hmem
      exact ⟨hts ▸ hsy, hk⟩
    · rintro ⟨hsy, hk⟩
      exact ⟨t.symbol, hsy, (mem_tasksForSymbol st t.symbol t).mpr ⟨rfl, hk⟩⟩
  exact ⟨base ⟨sym, .ticker⟩, base ⟨sym, .orderbook⟩, base ⟨sym, .trades⟩,
    fun tf => base ⟨sym, .ohlcv tf⟩, base ⟨sym, .funding⟩,
    base ⟨sym, .mark_price⟩⟩

/-- C4 amended witness: in the counterexample configuration the OHLCV task
for the defaulted `"1m"` timeframe is present although klines are not
configured. -/
theorem c4_start_task_set_amended_witness :
    (⟨"BTC/USDT:USDT", .ohlcv "1m"⟩ : SubTask)
      ∈ startTasks ⟨["BTC/USDT:USDT"], []⟩ :=
  ((c4_start_task_set_amended ⟨["BTC/USDT:USDT"], []⟩ "BTC/USDT:USDT").2.2.2.1
    "1m").mpr ⟨by decide, by decide⟩

/-- Every query result is sorted by its `ORDER BY` relation. -/
theorem runQuery_sorted (f : α → Int) (r : α → α → Prop) [DecidableRel r]
    [IsTotal α r] [IsTrans α r] (pred : α → Bool) (a b : Option Int)
    (lim : Option Nat) (rows : List α) :
    List.Sorted r (runQuery f r pred a b lim rows) := by
  unfold runQuery takeLimit
  cases lim
  · exact List.sorted_insertionSort r _
  · exact (List.sorted_insertionSort r _).sublist (List.take_sublist _ _)

/-- Every returned row passed the query's `WHERE` filters. -/
theorem runQuery_mem (f : α → Int) (r : α → α → Prop) [DecidableRel r]
    (pred : α → Bool) (a b : Option Int) (lim : Option Nat) (rows : List α)
    (x : α) (hx : x ∈ runQuery f r pred a b lim rows) :
    pred x = true ∧ inWindow a b (f x) = true := by
  unfold runQuery takeLimit at hx
  have hx' : x ∈ List.insertionSort r
      (rows.filter (fun y => pred y && inWindow a b (f y))) := by
    cases lim
    · exact hx
    · exact (List.take_sublist _ _).mem hx
  rw [(List.perm_insertionSort r _).mem_iff] at hx'
  have h2 := (List.mem_filter.mp hx').2
  rw [Bool.and_eq_true] at h2
  exact h2

/-- A query with a limit returns at most that many rows. -/
theorem runQuery_length (f : α → Int) (r : α → α → Prop) [DecidableRel r]
    (pred : α → Bool) (a b : Option Int) (n : Nat) (rows : List α) :
    (runQuery f r pred a b (some n) rows).length ≤ n := by
  unfold runQuery takeLimit
  exact List.length_take_le ..

/-- C5 — for every shard state and optional inclusive window and limit:
ticker, orderbook, trades, funding-rate and mark-price queries are ordered
newest-first by timestamp, OHLCV queries are ordered oldest-first (and only
contain the requested timeframe), every returned row's timestamp lies inside
the window, and the result count is at most the limit when one is given. -/
theorem c5_query_ordering_window_limit (s : Shard) (tf : String)
    (a b : Option Int) (lim : Option Nat) :
    (List.Sorted (tsDesc TickerRow.timestamp) (query_ticker s a b lim) ∧
     (∀ x ∈ query_ticker s a b lim, inWindow a b x.timestamp = true) ∧
     (∀ n, lim = some n → (query_ticker s a b lim).length ≤ n)) ∧
    (List.Sorted (tsDesc OrderbookRow.timestamp) (query_orderbook s a b lim) ∧
     (∀ x ∈ query_orderbook s a b lim, inWindow a b x.timestamp = true) ∧
     (∀ n, lim = some n → (query_orderbook s a b lim).length ≤ n)) ∧
    (List.Sorted (tsDesc TradeRow.timestamp) (query_trades s a b lim) ∧
     (∀ x ∈ query_trades s a b lim, inWindow a b x.timestamp = true) ∧
     (∀ n, lim = some n → (query_trades s a b lim).length ≤ n)) ∧
    (List.Sorted (tsAsc OhlcvRow.timestamp) (query_ohlcv s tf a b lim) ∧
     (∀ x ∈ query_ohlcv s tf a b lim,
        x.timeframe = tf ∧ inWindow a b x.timestamp = true) ∧
     (∀ n, lim = some n → (query_ohlcv s tf a b lim).length ≤ n)) ∧
    (List.Sorted (tsDesc FundingRateRow.timestamp)
       (query_funding_rate s a b lim) ∧
     (∀ x ∈ query_funding_rate s a b lim, inWindow a b x.timestamp = true) ∧
     (∀ n, lim = some n → (query_funding_rate s a b lim).length ≤ n)) ∧
    (List.Sorted (tsDesc MarkPriceRow.timestamp) (query_mark_price s a b lim) ∧
     (∀ x ∈ query_mark_price s a b lim, inWindow a b x.timestamp = true) ∧
     (∀ n, lim = some n → (query_mark_price s a b lim).length ≤ n)) := by
  refine ⟨⟨runQuery_sorted .., fun x hx => (runQuery_mem _ _ _ _ _ _ _ x hx).2,
      fun n hn => hn ▸ runQuery_length ..⟩,
    ⟨runQuery_sorted .., fun x hx => (runQuery_mem _ _ _ _ _ _ _ x hx).2,
      fun n hn => hn ▸ runQuery_length ..⟩,
    ⟨runQuery_sorted .., fun x hx => (runQuery_mem _ _ _ _ _ _ _ x hx).2,
      fun n hn => hn ▸ runQuery_length ..⟩,
    ⟨runQuery_sorted .., fun x hx => ?_, fun n hn => hn ▸ runQuery_length ..⟩,
    ⟨runQuery_sorted .., fun x hx => (runQuery_mem _ _ _ _ _ _ _ x hx).2,
      fun n hn => hn ▸ runQuery_length ..⟩,
    ⟨runQuery_sorted .., fun x hx => (runQuery_mem _ _ _ _ _ _ _ x hx).2,
      fun n hn => hn ▸ runQuery_length ..⟩⟩
  have h := runQuery_mem _ _ _ _ _ _ _ x hx
  exact ⟨of_decide_eq_true h.1, h.2⟩

/-- C5 witness: on the one-row shard with limit 1 and an unbounded window,
the stored trade is returned inside the window and the count bound holds. -/
theorem c5_query_ordering_window_limit_witness :
    inWindow none none staleTradeRow.timestamp = true ∧
    (query_trades staleShard none none (some 1)).length ≤ 1 := by
  have h := c5_query_ordering_window_limit staleShard "1m" none none (some 1)
  constructor
  · exact h.2.2.1.2.1 staleTradeRow (by decide)
  · exact h.2.2.1.2.2 1 rfl

/-- C1 — per-symbol conflict policy: inserting a trade whose id equals the id
of an already-stored trade leaves exactly one stored row for that id (the
first one) and is not counted; within one batch a later duplicate id is
ignored and only the first is counted; inserting a candle leaves exactly one
stored row for its `(timestamp, timeframe)` identity, holding the most
recently inserted open/high/low/close/volume values (retention hypotheses
keep the surviving row inside the 7-day window). -/
theorem c1_insert_conflict_policy (now : Int) (s : Shard) :
    (∀ (p : TradePayload) (i : String) (rp r : TradeRow),
       mkTradeRow p = some rp → rp.id = some i →
       s.trades.filter (fun q => q.id = some i) = [r] →
       cutoff now ≤ r.timestamp →
       (insert_trades [p] now s).2.trades.filter (fun q => q.id = some i)
           = [r] ∧
       (insert_trades [p] now s).1 = 0) ∧
    (∀ (p p' : TradePayload) (i : String) (rp rp' : TradeRow),
       mkTradeRow p = some rp → mkTradeRow p' = some rp' →
       rp.id = some i → rp'.id = some i →
       s.trades.filter (fun q => q.id = some i) = [] →
       cutoff now ≤ rp.timestamp →
       (insert_trades [p, p'] now s).2.trades.filter (fun q => q.id = some i)
           = [rp] ∧
       (insert_trades [p, p'] now s).1 = 1) ∧
    (∀ (tf : String) (c : Candle) (rc : OhlcvRow),
       mkOhlcvRow s.symbol tf c = some rc →
       cutoff now ≤ rc.timestamp →
       (insert_ohlcv tf [c] now s).2.ohlcv.filter
           (fun q => q.timestamp = rc.timestamp ∧ q.timeframe = rc.timeframe)
           = [rc] ∧
       (insert_ohlcv tf [c] now s).1 = 1) := by
  refine ⟨?_, ?_, ?_⟩
  · intro p i rp r hmk hid hfil hret
    have hr : r ∈ s.trades.filter (fun q => q.id = some i) := by
      rw [hfil]
      exact List.mem_singleton_self r
    have hany : s.trades.any (fun q => q.id = some i) = true := by
      rw [List.any_eq_true]
      obtain ⟨hmem, hpred⟩ := List.mem_filter.mp hr
      exact ⟨r, hmem, hpred⟩
    have hres : insert_trades [p] now s
        = (0, cleanup_old_records now { s with trades := s.trades }) := by
      simp [insert_trades, insertTradeStep, hmk, hid, hany]
    rw [hres]
    refine ⟨?_, rfl⟩
    show ((s.trades.filter fun q => cutoff now ≤ q.timestamp).filter
        fun q => q.id = some i) = [r]
    rw [List.filter_comm, hfil]
    simp [hret]
  · intro p p' i rp rp' hmk hmk' hid hid' hfil hret
    have hany0 : s.trades.any (fun q => q.id = some i) = false := by
      rw [Bool.eq_false_iff]
      intro hx
      obtain ⟨x, hxm, hxp⟩ := List.any_eq_true.mp hx
      have : x ∈ s.trades.filter (fun q => q.id = some i) :=
        List.mem_filter.mpr ⟨hxm, hxp⟩
      rw [hfil] at this
      exact absurd this (List.not_mem_nil x)
    have hany1 : (s.trades ++ [rp]).any (fun q => q.id = some i) = true := by
      rw [List.any_eq_true]
      exact ⟨rp, List.mem_append_right _ (List.mem_singleton_self rp),
        by simp [hid]⟩
    have hres : insert_trades [p, p'] now s
        = (1, cleanup_old_records now { s with trades := s.trades ++ [rp] }) := by
      simp [insert_trades, insertTradeStep, hmk, hmk', hid, hid', hany0, hany1]
    rw [hres]
    refine ⟨?_, rfl⟩
    show (((s.trades ++ [rp]).filter fun q => cutoff now ≤ q.timestamp).filter
        fun q => q.id = some i) = [rp]
    rw [List.filter_comm, List.filter_append, hfil]
    simp [hid, hret]
  · intro tf c rc hmk hret
    have hres : insert_ohlcv tf [c] now s
        = (1, cleanup_old_records now
            { s with ohlcv := (s.ohlcv.filter (fun q =>
                ¬(q.timestamp = rc.timestamp ∧ q.timeframe = rc.timeframe)))
                ++ [rc] }) := by
      simp [insert_ohlcv, insertOhlcvStep, hmk]
    rw [hres]
    refine ⟨?_, rfl⟩
    show ((((s.ohlcv.filter (fun q =>
        ¬(q.timestamp = rc.timestamp ∧ q.timeframe = rc.timeframe)))
        ++ [rc]).filter fun q => cutoff now ≤ q.timestamp).filter
        fun q => q.timestamp = rc.timestamp ∧ q.timeframe = rc.timeframe)
        = [rc]
    rw [List.filter_comm, List.filter_append]
    have hzero : (s.ohlcv.filter
        (fun q => ¬(q.timestamp = rc.timestamp ∧ q.timeframe = rc.timeframe))).filter
        (fun q => q.timestamp = rc.timestamp ∧ q.timeframe = rc.timeframe) = [] := by
      rw [List.filter_eq_nil_iff]
      intro a ha
      have := (List.mem_filter.mp ha).2
      simp only [decide_not, Bool.not_eq_true'] at this
      simp [this]
    rw [hzero]
    simp [hret]

/-- The row `sampleTradePayload` stores. -/
def sampleTradeRow : TradeRow :=
  { id := some "T1", timestamp := 3, symbol := "BTC/USDT:USDT", side := "buy",
    price := 5, amount := 2, cost := none, order_id := none,
    taker_or_maker := none, fee_cost := none, fee_currency := none,
    info := "\x7b\x7d" }

/-- The row `sampleTradePayloadDup` would store. -/
def sampleTradeRowDup : TradeRow :=
  { id := some "T1", timestamp := 4, symbol := "BTC/USDT:USDT", side := "sell",
    price := 6, amount := 1, cost := none, order_id := none,
    taker_or_maker := none, fee_cost := none, fee_currency := none,
    info := "\x7b\x7d" }

/-- A shard already holding `sampleTradeRow`. -/
def dupShard : Shard := { emptyShard with trades := [sampleTradeRow] }

/-- The row `sampleCandle` stores under timeframe `"1m"`. -/
def sampleOhlcvRow : OhlcvRow :=
  { timestamp := 3, symbol := "BTC/USDT:USDT", timeframe := "1m", open_ := 1,
    high := 2, low := 1, close := 2, volume := 9 }

/-- C1 witness: inserting a duplicate-id trade against a shard already
holding that id keeps the first row and counts 0; a batch with two
same-id trades stores the first and counts 1; a candle insert counts 1. -/
theorem c1_insert_conflict_policy_witness :
    (insert_trades [sampleTradePayloadDup] 0 dupShard).2.trades.filter
        (fun q => q.id = some "T1") = [sampleTradeRow] ∧
    (insert_trades [sampleTradePayloadDup] 0 dupShard).1 = 0 ∧
    (insert_trades [sampleTradePayload, sampleTradePayloadDup] 0 emptyShard).1
        = 1 ∧
    (insert_ohlcv "1m" [sampleCandle] 0 emptyShard).1 = 1 := by
  have h := c1_insert_conflict_policy 0 dupShard
  have h' := c1_insert_conflict_policy 0 emptyShard
  obtain ⟨ha, hb⟩ := h.1 sampleTradePayloadDup "T1" sampleTradeRowDup
    sampleTradeRow (by decide) (by decide) (by decide) (by decide)
  obtain ⟨hc, hd⟩ := h'.2.1 sampleTradePayload sampleTradePayloadDup "T1"
    sampleTradeRow sampleTradeRowDup (by decide) (by decide) (by decide)
    (by decide) (by decide) (by decide)
  obtain ⟨he, hf⟩ := h'.2.2 "1m" sampleCandle sampleOhlcvRow (by decide)
    (by decide)
  exact ⟨ha, hb, hd, hf⟩

/-- Every row of every table is at or after the retention cutoff. -/
def prunedShard (now : Int) (s : Shard) : Prop :=
  (∀ r ∈ s.ticker, cutoff now ≤ r.timestamp) ∧
  (∀ r ∈ s.orderbook, cutoff now ≤ r.timestamp) ∧
  (∀ r ∈ s.trades, cutoff now ≤ r.timestamp) ∧
  (∀ r ∈ s.ohlcv, cutoff now ≤ r.timestamp) ∧
  (∀ r ∈ s.funding_rate, cutoff now ≤ r.timestamp) ∧
  (∀ r ∈ s.mark_price, cutoff now ≤ r.timestamp)

/-- Rows of `old` inside the retention window (per key `ts`) survive into
`new`. -/
def keptRows (c : Int) (ts : α → Int) (old new : List α) : Prop :=
  ∀ r ∈ old, c ≤ ts r → r ∈ new

/-- In-window rows of all six tables survive from `s` to `s'`. -/
def keptAll (now : Int) (s s' : Shard) : Prop :=
  keptRows (cutoff now) TickerRow.timestamp s.ticker s'.ticker ∧
  keptRows (cutoff now) OrderbookRow.timestamp s.orderbook s'.orderbook ∧
  keptRows (cutoff now) TradeRow.timestamp s.trades s'.trades ∧
  keptRows (cutoff now) OhlcvRow.timestamp s.ohlcv s'.ohlcv ∧
  keptRows (cutoff now) FundingRateRow.timestamp s.funding_rate
    s'.funding_rate ∧
  keptRows (cutoff now) MarkPriceRow.timestamp s.mark_price s'.mark_price

/-- The cleanup sweep leaves only in-window rows. -/
theorem prunedShard_cleanup (now : Int) (s : Shard) :
    prunedShard now (cleanup_old_records now s) := by
  refine ⟨?_, ?_, ?_, ?_, ?_, ?_⟩ <;>
    exact fun r hr => of_decide_eq_true (List.mem_filter.mp hr).2

/-- An in-window row survives the cleanup filter. -/
theorem mem_filter_cutoff (now : Int) (ts : α → Int) (l : List α) (r : α)
    (hr : r ∈ l) (h : cutoff now ≤ ts r) :
    r ∈ l.filter (fun x => cutoff now ≤ ts x) :=
  List.mem_filter.mpr ⟨hr, decide_eq_true h⟩

/-- The trades loop only appends rows: membership is preserved. -/
theorem mem_foldl_insertTradeStep (ps : List TradePayload)
    (acc : List TradeRow × Nat) (r : TradeRow) (hr : r ∈ acc.1) :
    r ∈ (ps.foldl insertTradeStep acc).1 := by
  induction ps generalizing acc with
  | nil => exact hr
  | cons p ps ih =>
      refine ih _ ?_
      unfold insertTradeStep
      split
      · exact hr
      · split
        · split
          · exact hr
          · exact List.mem_append_left _ hr
        · exact List.mem_append_left _ hr

/-- A successful candle write carries the loop's timeframe and the candle's
timestamp. -/
theorem mkOhlcvRow_fields (sym tf : String) (c : Candle) (rr : OhlcvRow)
    (h : mkOhlcvRow sym tf c = some rr) :
    rr.timeframe = tf ∧ c.timestamp = some rr.timestamp := by
  unfold mkOhlcvRow at h
  split at h
  · next heq _ _ _ _ _ =>
      cases h
      exact ⟨rfl, heq⟩
  · exact absurd h (by simp)

/-- The OHLCV loop deletes only rows sharing an inserted candle's identity:
any other row's membership is preserved. -/
theorem mem_foldl_insertOhlcvStep (sym tf : String) (cs : List Candle)
    (acc : List OhlcvRow × Nat) (r : OhlcvRow) (hr : r ∈ acc.1)
    (hkeep : r.timeframe ≠ tf ∨ ∀ c ∈ cs, c.timestamp ≠ some r.timestamp) :
    r ∈ (cs.foldl (insertOhlcvStep sym tf) acc).1 := by
  induction cs generalizing acc with
  | nil => exact hr
  | cons c cs ih =>
      have hkeep' : r.timeframe ≠ tf ∨
          ∀ c' ∈ cs, c'.timestamp ≠ some r.timestamp := by
        rcases hkeep with h | h
        · exact Or.inl h
        · exact Or.inr fun c' hc' => h c' (List.mem_cons_of_mem c hc')
      refine ih _ ?_ hkeep'
      unfold insertOhlcvStep
      split
      · exact hr
      · next rr hrr =>
          refine List.mem_append_left _ (List.mem_filter.mpr ⟨hr, ?_⟩)
          obtain ⟨htf, hts⟩ := mkOhlcvRow_fields sym tf c rr hrr
          refine decide_eq_true ?_
          rintro ⟨h1, h2⟩
          rcases hkeep with h | h
          · exact h (h2.trans htf)
          · exact h c (List.mem_cons_self c cs) (hts.trans (by rw [h1]))

/-- C2 counterexample — an in-window row does *not* always survive an insert
into its table: inserting a candle with the identity of a stored, in-window
candle replaces it (`INSERT OR REPLACE`), so the old row is gone after the
insert even though it is newer than the retention boundary. -/
theorem c2_counterexample :
    cutoff 0 ≤ (⟨0, "BTC/USDT:USDT", "1m", 1, 1, 1, 1, 1⟩ : OhlcvRow).timestamp ∧
    (⟨0, "BTC/USDT:USDT", "1m", 1, 1, 1, 1, 1⟩ : OhlcvRow)
      ∈ ({ emptyShard with
            ohlcv := [⟨0, "BTC/USDT:USDT", "1m", 1, 1, 1, 1, 1⟩] } : Shard).ohlcv ∧
    (⟨0, "BTC/USDT:USDT", "1m", 1, 1, 1, 1, 1⟩ : OhlcvRow)
      ∉ (insert_ohlcv "1m" [⟨some 0, some 2, some 2, some 2, some 2, some 2⟩] 0
          { emptyShard with
            ohlcv := [⟨0, "BTC/USDT:USDT", "1m", 1, 1, 1, 1, 1⟩] }).2.ohlcv := by
  refine ⟨by decide, by decide, by decide⟩

/-- C2 amended — every successful insert (with a non-empty batch for the bulk
operations) runs the retention sweep in the same unit of work: afterwards
every row of all six tables is inside the 7-day window, and every previously
stored in-window row survives **unless** it was displaced by the insert's own
conflict policy (a same-identity `INSERT OR REPLACE` for ohlcv, funding-rate
and mark-price; ticker, orderbook and trades inserts displace nothing). -/
theorem c2_insert_prunes_amended (now : Int) (s : Shard) :
    (∀ p s', insert_ticker p now s = (none, s') →
       prunedShard now s' ∧ keptAll now s s') ∧
    (∀ p s', insert_orderbook p now s = (none, s') →
       prunedShard now s' ∧ keptAll now s s') ∧
    (∀ ps n s', ps ≠ [] → insert_trades ps now s = (n, s') →
       prunedShard now s' ∧ keptAll now s s') ∧
    (∀ tf cs n s', cs ≠ [] → insert_ohlcv tf cs now s = (n, s') →
       prunedShard now s' ∧
       keptRows (cutoff now) TickerRow.timestamp s.ticker s'.ticker ∧
       keptRows (cutoff now) OrderbookRow.timestamp s.orderbook s'.orderbook ∧
       keptRows (cutoff now) TradeRow.timestamp s.trades s'.trades ∧
       (∀ r ∈ s.ohlcv, cutoff now ≤ r.timestamp →
          (r.timeframe ≠ tf ∨ ∀ c ∈ cs, c.timestamp ≠ some r.timestamp) →
          r ∈ s'.ohlcv) ∧
       keptRows (cutoff now) FundingRateRow.timestamp s.funding_rate
         s'.funding_rate ∧
       keptRows (cutoff now) MarkPriceRow.timestamp s.mark_price
         s'.mark_price) ∧
    (∀ p s', insert_funding_rate p now s = (none, s') →
       prunedShard now s' ∧
       keptRows (cutoff now) TickerRow.timestamp s.ticker s'.ticker ∧
       keptRows (cutoff now) OrderbookRow.timestamp s.orderbook s'.orderbook ∧
       keptRows (cutoff now) TradeRow.timestamp s.trades s'.trades ∧
       keptRows (cutoff now) OhlcvRow.timestamp s.ohlcv s'.ohlcv ∧
       (∀ r ∈ s.funding_rate, cutoff now ≤ r.timestamp →
          p.timestamp ≠ some r.timestamp → r ∈ s'.funding_rate) ∧
       keptRows (cutoff now) MarkPriceRow.timestamp s.mark_price
         s'.mark_price) ∧
    (∀ p s', insert_mark_price p now s = (none, s') →
       prunedShard now s' ∧
       keptRows (cutoff now) TickerRow.timestamp s.ticker s'.ticker ∧
       keptRows (cutoff now) OrderbookRow.timestamp s.orderbook s'.orderbook ∧
       keptRows (cutoff now) TradeRow.timestamp s.trades s'.trades ∧
       keptRows (cutoff now) OhlcvRow.timestamp s.ohlcv s'.ohlcv ∧
       keptRows (cutoff now) FundingRateRow.timestamp s.funding_rate
         s'.funding_rate ∧
       (∀ r ∈ s.mark_price, cutoff now ≤ r.timestamp →
          p.timestamp ≠ some r.timestamp → r ∈ s'.mark_price)) := by
  refine ⟨?_, ?_, ?_, ?_, ?_, ?_⟩
  · intro p s' h
    unfold insert_ticker at h
    split at h
    · exact absurd h (by simp)
    · injection h with h1 h2
      subst h2
      refine ⟨prunedShard_cleanup now _, ?_, ?_, ?_, ?_, ?_, ?_⟩ <;>
        intro r hr hret
      · exact mem_filter_cutoff now _ _ r (List.mem_append_left _ hr) hret
      all_goals exact mem_filter_cutoff now _ _ r hr hret
  · intro p s' h
    unfold insert_orderbook at h
    split at h
    · exact absurd h (by simp)
    · injection h with h1 h2
      subst h2
      refine ⟨prunedShard_cleanup now _, ?_, ?_, ?_, ?_, ?_, ?_⟩ <;>
        intro r hr hret
      · exact mem_filter_cutoff now _ _ r hr hret
      · exact mem_filter_cutoff now _ _ r (List.mem_append_left _ hr) hret
      all_goals exact mem_filter_cutoff now _ _ r hr hret
  · intro ps n s' hne h
    unfold insert_trades at h
    split at h
    · exact absurd rfl hne
    · injection h with h1 h2
      subst h2
      refine ⟨prunedShard_cleanup now _, ?_, ?_, ?_, ?_, ?_, ?_⟩ <;>
        intro r hr hret
      · exact mem_filter_cutoff now _ _ r hr hret
      · exact mem_filter_cutoff now _ _ r hr hret
      · exact mem_filter_cutoff now _ _ r
          (mem_foldl_insertTradeStep ps (s.trades, 0) r hr) hret
      all_goals exact mem_filter_cutoff now _ _ r hr hret
  · intro tf cs n s' hne h
    unfold insert_ohlcv at h
    split at h
    · exact absurd rfl hne
    · injection h with h1 h2
      subst h2
      refine ⟨prunedShard_cleanup now _, ?_, ?_, ?_, ?_, ?_, ?_⟩
      · intro r hr hret
        exact mem_filter_cutoff now _ _ r hr hret
      · intro r hr hret
        exact mem_filter_cutoff now _ _ r hr hret
      · intro r hr hret
        exact mem_filter_cutoff now _ _ r hr hret
      · intro r hr hret hkeep
        exact mem_filter_cutoff now _ _ r
          (mem_foldl_insertOhlcvStep s.symbol tf cs (s.ohlcv, 0) r hr hkeep)
          hret
      · intro r hr hret
        exact mem_filter_cutoff now _ _ r hr hret
      · intro r hr hret
        exact mem_filter_cutoff now _ _ r hr hret
  · intro p s' h
    unfold insert_funding_rate at h
    split at h
    · rcases hts : p.timestamp with _ | t0 <;> simp only [hts] at h <;>
        obtain ⟨h1, h2⟩ := Prod.mk.injEq .. ▸ h <;> subst h2 <;>
        refine ⟨prunedShard_cleanup now _, ?_, ?_, ?_, ?_, ?_, ?_⟩ <;>
        try (intro r hr hret; exact mem_filter_cutoff now _ _ r hr hret)
      · intro r hr hret hcarve
        have hlt := lt_autoRowid (s.funding_rate.map FundingRateRow.timestamp)
          r.timestamp (List.mem_map_of_mem _ hr)
        refine mem_filter_cutoff now _ _ r
          (List.mem_append_left _ (List.mem_filter.mpr ⟨hr, ?_⟩)) hret
        exact decide_eq_true (ne_of_lt hlt)
      · intro r hr hret hcarve
        refine mem_filter_cutoff now _ _ r
          (List.mem_append_left _ (List.mem_filter.mpr ⟨hr, ?_⟩)) hret
        refine decide_eq_true ?_
        intro hcon
        exact hcarve (by rw [hcon])
    · exact absurd h (by simp)
  · intro p s' h
    unfold insert_mark_price at h
    split at h
    · rcases hts : p.timestamp with _ | t0 <;> simp only [hts] at h <;>
        obtain ⟨h1, h2⟩ := Prod.mk.injEq .. ▸ h <;> subst h2 <;>
        refine ⟨prunedShard_cleanup now _, ?_, ?_, ?_, ?_, ?_, ?_⟩ <;>
        try (intro r hr hret; exact mem_filter_cutoff now _ _ r hr hret)
      · intro r hr hret hcarve
        have hlt := lt_autoRowid (s.mark_price.map MarkPriceRow.timestamp)
          r.timestamp (List.mem_map_of_mem _ hr)
        refine mem_filter_cutoff now _ _ r
          (List.mem_append_left _ (List.mem_filter.mpr ⟨hr, ?_⟩)) hret
        exact decide_eq_true (ne_of_lt hlt)
      · intro r hr hret hcarve
        refine mem_filter_cutoff now _ _ r
          (List.mem_append_left _ (List.mem_filter.mpr ⟨hr, ?_⟩)) hret
        refine decide_eq_true ?_
        intro hcon
        exact hcarve (by rw [hcon])
    · exact absurd h (by simp)

/-- Sample ticker payload with the `NOT NULL` columns present. -/
def sampleTickerPayload : TickerPayload :=
  { timestamp := some 3, symbol := some "BTC/USDT:USDT", high := none,
    low := none, bid := none, bidVolume := none, ask := none, askVolume := none,
    vwap := none, open_ := none, close := none, last := none,
    previousClose := none, change := none, percentage := none, average := none,
    baseVolume := none, quoteVolume := none, info := "\x7b\x7d" }

/-- C2 witness: a concrete ticker insert at clock 0 into the shard holding
one stale trade prunes and keeps as stated. -/
theorem c2_insert_prunes_amended_witness :
    prunedShard 0 (insert_ticker sampleTickerPayload 0 staleShard).2 ∧
    keptAll 0 staleShard (insert_ticker sampleTickerPayload 0 staleShard).2 :=
  (c2_insert_prunes_amended 0 staleShard).1 sampleTickerPayload _ rfl

/-- C6 — single-instance lock: while one holder owns the exclusive lock at
the path, a second `start()` against it raises immediately (the model's error
result) and leaves the second runtime unchanged, hence not running; and a
lock conflict is the only condition under which `start()` produces an error
at all. -/
theorem c6_second_start_raises (st : Runtime) :
    (st.running = false → st.lock_acquired = false →
       Runtime.start true st = (some .conflict, st) ∧
       (Runtime.start true st).2.running = false) ∧
    (∀ locked e st', Runtime.start locked st = (some e, st') →
       e = .conflict ∧ st' = st ∧ locked = true ∧
       st.running = false ∧ st.lock_acquired = false) := by
  constructor
  · intro hrun hlock
    have : Runtime.start true st = (some .conflict, st) := by
      unfold Runtime.start acquire_process_lock
      rw [hrun, hlock]
      simp
    exact ⟨this, by rw [this]; exact hrun⟩
  · intro locked e st' h
    unfold Runtime.start acquire_process_lock at h
    split at h
    · exact absurd h (by simp)
    · next hrun =>
        have hrunf : st.running = false := by simpa using hrun
        split at h
        · next e1 st1 heq =>
            by_cases hlock : st.lock_acquired = true
            · rw [if_pos hlock] at heq
              exact absurd heq (by simp)
            · rw [if_neg hlock] at heq
              by_cases hloc : locked = true
              · rw [if_pos hloc] at heq
                injection heq with he1 hst1
                injection h with he hst
                refine ⟨((Option.some.inj he1).trans (Option.some.inj he)).symm,
                  (hst1.trans hst).symm, hloc, hrunf, by simpa using hlock⟩
              · rw [if_neg hloc] at heq
                exact absurd heq (by simp)
        · exact absurd h (by simp)

/-- C6 witness: against a fresh runtime holding the lock elsewhere, `start()`
errors with the state unchanged. -/
theorem c6_second_start_raises_witness :
    Runtime.start true initRuntime = (some .conflict, initRuntime) :=
  ((c6_second_start_raises initRuntime).1 rfl rfl).1

/-- Closed form of `acquire_reader` on a running runtime: no lock activity, a
fresh token is appended and the collector group ends up started. -/
theorem acquire_reader_run (st : Runtime) (h : st.running = true)
    (name : Option String) :
    Runtime.acquire_reader false name st =
      (none, some st.next_token,
       { st with
         active_readers := st.active_readers ++ [(st.next_token, name)]
         next_token := st.next_token + 1
         collectors_started := true }) := by
  obtain ⟨la, run, se, ar, csf, nt⟩ := st
  simp only at h
  subst h
  cases csf <;>
    simp [Runtime.acquire_reader, Runtime.start, start_collectors]

/-- Closed form of `release_reader`: the token's entry is removed (a no-op
for an unknown token), and the collector group stops exactly when a present
token's removal empties the active set. -/
theorem release_reader_spec (st : Runtime) (t : Nat) :
    (Runtime.release_reader t st).active_readers
        = st.active_readers.filter (fun p => p.1 ≠ t) ∧
    (Runtime.release_reader t st).collectors_started
        = (if st.active_readers.any (fun p => p.1 = t) &&
              (st.active_readers.filter (fun p => p.1 ≠ t)).isEmpty
           then false else st.collectors_started) ∧
    (Runtime.release_reader t st).running = st.running := by
  unfold Runtime.release_reader stop_collectors
  by_cases ha : st.active_readers.any (fun p => p.1 = t) = true
  · rw [if_neg (by simp [ha]), ha]
    by_cases he : (st.active_readers.filter (fun p => p.1 ≠ t)).isEmpty = true
    · rw [if_pos he, he]
      cases hcs : st.collectors_started <;> simp [hcs]
    · rw [if_neg he, Bool.eq_false_iff.mpr he]
      simp
  · have haf : st.active_readers.any (fun p => p.1 = t) = false :=
      Bool.eq_false_iff.mpr ha
    rw [if_pos (by simp [haf]), haf]
    have hself : st.active_readers.filter (fun p => p.1 ≠ t)
        = st.active_readers := by
      refine List.filter_eq_self.mpr fun a hmem => ?_
      have := List.any_eq_false.mp haf a hmem
      simpa using this
    rw [hself]
    simp

/-- `map Prod.fst` commutes with filtering on the key. -/
theorem map_fst_filter_key (l : List (Nat × Option String)) (q : Nat → Bool) :
    (l.filter (fun p => q p.1)).map Prod.fst = (l.map Prod.fst).filter q := by
  induction l with
  | nil => rfl
  | cons x xs ih =>
      by_cases h : q x.1 = true <;> simp [List.filter_cons, h, ih]

/-- Effect of a sequence of `release_reader` calls: exactly the listed tokens
are removed, and the collector group ends up stopped iff the releases emptied
a previously non-empty active set. -/
theorem releaseMany_spec (l : List Nat) (st : Runtime) :
    (releaseMany l st).active_readers
        = st.active_readers.filter (fun p => p.1 ∉ l) ∧
    (releaseMany l st).collectors_started
        = (if st.active_readers.isEmpty then st.collectors_started
           else if (st.active_readers.filter (fun p => p.1 ∉ l)).isEmpty
           then false else st.collectors_started) ∧
    (releaseMany l st).running = st.running := by
  induction l generalizing st with
  | nil =>
      have hf : st.active_readers.filter (fun p => p.1 ∉ ([] : List Nat))
          = st.active_readers :=
        List.filter_eq_self.mpr (fun a _ => by simp)
      refine ⟨by rw [show releaseMany [] st = st from rfl, hf], ?_, rfl⟩
      rw [show releaseMany [] st = st from rfl, hf]
      split_ifs <;> rfl
  | cons t rest ih =>
      have hstep : releaseMany (t :: rest) st
          = releaseMany rest (Runtime.release_reader t st) := rfl
      obtain ⟨h1, h2, h3⟩ := release_reader_spec st t
      obtain ⟨ih1, ih2, ih3⟩ := ih (Runtime.release_reader t st)
      have hfilters : (Runtime.release_reader t st).active_readers.filter
            (fun p => p.1 ∉ rest)
          = st.active_readers.filter (fun p => p.1 ∉ t :: rest) := by
        rw [h1, List.filter_filter]
        refine List.filter_congr fun a _ => ?_
        by_cases h : a.1 = t <;> by_cases h' : a.1 ∈ rest <;>
          simp [h, h', List.mem_cons]
      refine ⟨by rw [hstep, ih1, hfilters], ?_, by rw [hstep, ih3, h3]⟩
      rw [hstep, ih2]
      by_cases hA : st.active_readers.isEmpty = true
      · have hAnil : st.active_readers = [] := List.isEmpty_iff.mp hA
        have hst1nil : (Runtime.release_reader t st).active_readers = [] := by
          rw [h1, hAnil]
          rfl
        rw [if_pos (by rw [hst1nil]; rfl), if_pos hA, h2, hAnil]
        rfl
      · rw [if_neg hA]
        by_cases hF : (st.active_readers.filter
            (fun p => p.1 ≠ t)).isEmpty = true
        · have hFnil := List.isEmpty_iff.mp hF
          have hall : ∀ a ∈ st.active_readers, a.1 = t := by
            intro a ha
            have := List.filter_eq_nil_iff.mp hFnil a ha
            simpa using this
          have hAne : st.active_readers ≠ [] := by
            intro hnil
            rw [hnil] at hA
            exact hA rfl
          obtain ⟨a0, rest0, hA0⟩ := List.exists_cons_of_ne_nil hAne
          have hmem0 : a0 ∈ st.active_readers := by
            rw [hA0]
            exact List.mem_cons_self a0 rest0
          have hany : st.active_readers.any (fun p => p.1 = t) = true :=
            List.any_eq_true.mpr ⟨a0, hmem0, decide_eq_true (hall a0 hmem0)⟩
          have hcsf1 : (Runtime.release_reader t st).collectors_started
              = false := by
            rw [h2, hany, hF]
            rfl
          have hRHS : (st.active_readers.filter
              (fun p => p.1 ∉ t :: rest)).isEmpty = true := by
            rw [List.isEmpty_iff, List.filter_eq_nil_iff]
            intro a ha
            simp [hall a ha]
          rw [if_pos (by rw [h1]; exact hF), hcsf1, if_pos hRHS]
        · have hst1ne : (Runtime.release_reader t st).active_readers.isEmpty
              = false := by
            rw [h1]
            exact Bool.eq_false_iff.mpr hF
          have hcsf1 : (Runtime.release_reader t st).collectors_started
              = st.collectors_started := by
            rw [h2, Bool.eq_false_iff.mpr hF]
            simp
          rw [if_neg (by rw [hst1ne]; simp), hfilters, hcsf1]

/-- Effect of a sequence of `acquire_reader` calls on a running runtime:
consecutive fresh tokens are minted and recorded, and the collector group is
started as soon as there is at least one acquisition. -/
theorem acquireMany_spec (names : List (Option String)) (st : Runtime)
    (h : st.running = true) :
    (acquireMany names st).1 = List.range' st.next_token names.length ∧
    (acquireMany names st).2.running = true ∧
    (acquireMany names st).2.next_token = st.next_token + names.length ∧
    (acquireMany names st).2.active_readers.map Prod.fst
        = st.active_readers.map Prod.fst
          ++ List.range' st.next_token names.length ∧
    (acquireMany names st).2.collectors_started
        = (if names.isEmpty then st.collectors_started else true) := by
  induction names generalizing st with
  | nil => exact ⟨rfl, h, rfl, by simp [acquireMany], rfl⟩
  | cons n ns ih =>
      have hstep : acquireMany (n :: ns) st
          = ((acquireMany ns
              { st with
                active_readers := st.active_readers ++ [(st.next_token, n)]
                next_token := st.next_token + 1
                collectors_started := true }).1.cons st.next_token,
             (acquireMany ns
              { st with
                active_readers := st.active_readers ++ [(st.next_token, n)]
                next_token := st.next_token + 1
                collectors_started := true }).2) := by
        show (match Runtime.acquire_reader false n st with
              | (_, some t, st1) =>
                  let r := acquireMany ns st1
                  (t :: r.1, r.2)
              | (_, none, st1) => acquireMany ns st1) = _
        rw [acquire_reader_run st h n]
      obtain ⟨ih1, ih2, ih3, ih4, ih5⟩ := ih
        { st with
          active_readers := st.active_readers ++ [(st.next_token, n)]
          next_token := st.next_token + 1
          collectors_started := true } h
      refine ⟨?_, ?_, ?_, ?_, ?_⟩
      · rw [hstep]
        show st.next_token :: _ = _
        rw [ih1, List.length_cons, List.range'_succ]
      · rw [hstep]
        exact ih2
      · rw [hstep]
        show _ = st.next_token + (ns.length + 1)
        rw [ih3]
        show st.next_token + 1 + ns.length = _
        omega
      · rw [hstep]
        show (acquireMany ns _).2.active_readers.map Prod.fst = _
        rw [ih4, List.length_cons, List.range'_succ]
        simp
      · rw [hstep]
        show (acquireMany ns _).2.collectors_started = _
        rw [ih5]
        cases hns : ns.isEmpty <;> simp [hns]

/-- `acquire_reader` against a stopped runtime with a free lock auto-starts
it and starts the collector group. -/
theorem acquire_reader_autostart (st : Runtime) (name : Option String)
    (h1 : st.running = false) (h2 : st.lock_acquired = false) :
    (Runtime.acquire_reader false name st).1 = none ∧
    (Runtime.acquire_reader false name st).2.2.running = true ∧
    (Runtime.acquire_reader false name st).2.2.collectors_started = true := by
  obtain ⟨la, run, se, ar, csf, nt⟩ := st
  simp only at h1 h2
  subst h1
  subst h2
  by_cases har : ar.isEmpty = true <;> cases csf <;>
    simp [Runtime.acquire_reader, Runtime.start, acquire_process_lock,
      start_collectors, har]

/-- C7 — reader reference counting: starting from a running runtime with no
active readers and a stopped collector group, N ≥ 1 `acquire_reader` calls
mint N distinct tokens, the first acquisition already starts the collector
group, the group stays started after releasing any proper sublist of the
tokens, and releasing all N tokens (in any order) stops the group and empties
the active set; moreover `acquire_reader` on a stopped runtime with a free
lock auto-starts it. -/
theorem c7_reader_refcount (st : Runtime) (names : List (Option String))
    (hrun : st.running = true) (hempty : st.active_readers = [])
    (hN : names ≠ []) :
    (acquireMany names st).1.Nodup ∧
    (acquireMany names st).1.length = names.length ∧
    (acquireMany names st).2.collectors_started = true ∧
    (∀ n ns, names = n :: ns →
       (Runtime.acquire_reader false n st).2.2.collectors_started = true) ∧
    (∀ l, List.Sublist l (acquireMany names st).1 →
       l.length < names.length →
       (releaseMany l (acquireMany names st).2).collectors_started = true) ∧
    (∀ l, List.Perm l (acquireMany names st).1 →
       (releaseMany l (acquireMany names st).2).collectors_started = false ∧
       (releaseMany l (acquireMany names st).2).active_readers = []) ∧
    (∀ (st2 : Runtime) (name : Option String), st2.running = false →
       st2.lock_acquired = false →
       (Runtime.acquire_reader false name st2).1 = none ∧
       (Runtime.acquire_reader false name st2).2.2.running = true ∧
       (Runtime.acquire_reader false name st2).2.2.collectors_started
         = true) := by
  obtain ⟨ha1, ha2, ha3, ha4, ha5⟩ := acquireMany_spec names st hrun
  have hNisE : names.isEmpty = false := by
    cases names
    · exact absurd rfl hN
    · rfl
  have hNpos : 0 < names.length := by
    cases names
    · exact absurd rfl hN
    · simp
  have hcsf : (acquireMany names st).2.collectors_started = true := by
    rw [ha5, hNisE]
    rfl
  have hmap : (acquireMany names st).2.active_readers.map Prod.fst
      = List.range' st.next_token names.length := by
    rw [ha4, hempty]
    rfl
  have hlenA : (acquireMany names st).2.active_readers.length
      = names.length := by
    have := congrArg List.length hmap
    simpa using this
  have hAne : (acquireMany names st).2.active_readers.isEmpty = false := by
    cases hAR : (acquireMany names st).2.active_readers with
    | nil =>
        rw [hAR] at hlenA
        exfalso
        simp at hlenA
        omega
    | cons x xs => rfl
  refine ⟨?_, ?_, hcsf, ?_, ?_, ?_, ?_⟩
  · rw [ha1]
    exact List.nodup_range' _ _
  · rw [ha1]
    exact List.length_range' ..
  · intro n ns hcons
    rw [acquire_reader_run st hrun n]
  · intro l hsub hlen
    obtain ⟨r1, r2, r3⟩ := releaseMany_spec l (acquireMany names st).2
    rw [r2, hAne]
    simp only [Bool.false_eq_true, if_false]
    have hfne : ((acquireMany names st).2.active_readers.filter
        (fun p => p.1 ∉ l)).isEmpty = false := by
      cases hfe : ((acquireMany names st).2.active_readers.filter
          (fun p => p.1 ∉ l)).isEmpty
      · rfl
      · exfalso
        have hnil := List.isEmpty_iff.mp hfe
        have hmapf := map_fst_filter_key
          (acquireMany names st).2.active_readers (fun x => decide (x ∉ l))
        rw [hnil, hmap] at hmapf
        have hsubset : List.range' st.next_token names.length ⊆ l := by
          intro x hx
          by_contra hxl
          have : x ∈ (List.range' st.next_token names.length).filter
              (fun y => decide (y ∉ l)) :=
            List.mem_filter.mpr ⟨hx, decide_eq_true hxl⟩
          rw [← hmapf] at this
          exact absurd this (List.not_mem_nil x)
        have hle := ((List.nodup_range' st.next_token names.length).subperm
          hsubset).length_le
        rw [List.length_range'] at hle
        omega
    rw [hfne]
    simp only [Bool.false_eq_true, if_false]
    exact hcsf
  · intro l hperm
    obtain ⟨r1, r2, r3⟩ := releaseMany_spec l (acquireMany names st).2
    have hfnil : (acquireMany names st).2.active_readers.filter
        (fun p => p.1 ∉ l) = [] := by
      rw [List.filter_eq_nil_iff]
      intro a ha
      have hafst : a.1 ∈ (acquireMany names st).2.active_readers.map Prod.fst :=
        List.mem_map_of_mem _ ha
      rw [hmap] at hafst
      have hal : a.1 ∈ l := hperm.mem_iff.mpr (ha1 ▸ hafst)
      simp [hal]
    refine ⟨?_, by rw [r1, hfnil]⟩
    rw [r2, hAne]
    simp only [Bool.false_eq_true, if_false]
    rw [hfnil]
    rfl
  · exact fun st2 name h1 h2 => acquire_reader_autostart st2 name h1 h2

/-- Sample settings with one symbol and a klines interval. -/
def sampleSettings : MarketDataSettings :=
  { symbols := ["BTC/USDT:USDT"], intervals := [("klines", "1m")] }

/-- C8 witness: concrete lifecycle round trip over the sample settings. -/
theorem c8_manager_lifecycle_witness :
    0 < (initManager.start sampleSettings).task_count ∧
    (initManager.start sampleSettings).stop.task_count = 0 ∧
    initManager.stop = initManager ∧
    (initManager.start sampleSettings).start sampleSettings
      = initManager.start sampleSettings := by
  have h := c8_manager_lifecycle sampleSettings (initManager.start sampleSettings)
  have h0 := c8_manager_lifecycle sampleSettings initManager
  exact ⟨h0.2.1 (by decide), h.2.2.1 rfl, h0.2.2.2.1 rfl, h.2.2.2.2 rfl⟩

/-- A runtime that has been started (lock held, running, no readers yet). -/
def startedRuntime : Runtime :=
  { initRuntime with running := true, lock_acquired := true }

/-- C7 witness: two acquisitions on the started runtime mint tokens 0 and 1
and start the group; releasing only token 0 keeps it started; releasing both
(in reverse order) stops it and empties the set. -/
theorem c7_reader_refcount_witness :
    (acquireMany [some "A", some "B"] startedRuntime).1 = [0, 1] ∧
    (acquireMany [some "A", some "B"] startedRuntime).2.collectors_started
      = true ∧
    (releaseMany [0]
      (acquireMany [some "A", some "B"] startedRuntime).2).collectors_started
      = true ∧
    (releaseMany [1, 0]
      (acquireMany [some "A", some "B"] startedRuntime).2).collectors_started
      = false ∧
    (releaseMany [1, 0]
      (acquireMany [some "A", some "B"] startedRuntime).2).active_readers
      = [] := by
  have h := c7_reader_refcount startedRuntime [some "A", some "B"] rfl rfl
    (by decide)
  have hperm := h.2.2.2.2.2.1 [1, 0] (by decide)
  exact ⟨by decide, h.2.2.1, h.2.2.2.2.1 [0] (by decide) (by decide),
    hperm.1, hperm.2⟩

end MDC
